import Mathlib

/-!
# Verification of the ironic PXE utilities (`ironic/common/pxe_utils.py`)

A shallow embedding of the pure computational core of `pxe_utils.py`:
path resolution for PXE/grub alias files, the DHCP option builder,
the placeholder/alias logic of `create_pxe_config`, the clean-up
routines, and `parse_driver_info`.

Conventions of the embedding:
* Global configuration (`CONF.*`) is threaded through as an explicit
  `Config` record.
* Task/node-dependent values obtained from external collaborators
  (`deploy_utils.get_pxe_boot_file`, `boot_mode_utils.get_boot_mode`,
  the DHCP provider's `get_ip_addresses`) are parameters of the
  functions that consume them.
* Python strings are Lean `String`s; Python truthiness of optional
  strings is made explicit (`none` and `some ""` are falsy).
* Fallible code returns `Except PxeError`; filesystem-mutating code is
  modelled as a transformer on an explicit list of existing paths.
-/

/-- Exceptions of `ironic.common.exception` that the embedded code can
mention (raise or catch). -/
inductive PxeError where
  | invalidIPv4Address
  | failedToGetIPAddressOnPort
  | missingParameterValue
  | keyError
  deriving DecidableEq, Repr

/-- The slice of the oslo configuration (`CONF`) read by the embedded
functions of `pxe_utils.py`. -/
structure Config where
  /-- `CONF.pxe.tftp_root` -/
  tftp_root : String
  /-- `CONF.deploy.http_root` -/
  http_root : String
  /-- `CONF.deploy.http_url` -/
  http_url : String
  /-- `CONF.pxe.tftp_server` -/
  tftp_server : String
  /-- `CONF.my_ipv6` (the empty string models the unset value). -/
  my_ipv6 : String
  /-- `CONF.pxe.ip_version` (guarded in configuration to 4 or 6). -/
  ip_version : Nat
  /-- `CONF.dhcp.dhcp_provider` -/
  dhcp_provider : String
  /-- `CONF.pxe.pxe_config_subdir` (module constant `PXE_CFG_DIR_NAME`). -/
  pxe_config_subdir : String
  /-- `CONF.pxe.ipxe_boot_script` -/
  ipxe_boot_script : String
  deriving DecidableEq, Repr

/-- Python truthiness of an optional string value: `None` and the empty
string are falsy. -/
def truthyOptStr : Option String → Bool
  | none => false
  | some s => s ≠ ""

/-- Embedding of `posixpath.join` restricted to two arguments, which is
how `os.path.join` is used in `pxe_utils.py` (three-argument calls are
the nested two-argument form). -/
def ospath_join (a b : String) : String :=
  if b.data.head? = some '/' then b
  else if a.data = [] ∨ a.data.getLast? = some '/' then a ++ b
  else a ++ "/" ++ b

/-- Embedding of `posixpath.basename`: the suffix after the last slash. -/
def ospath_basename (p : String) : String :=
  String.mk ((p.data.reverse.takeWhile (fun c => c ≠ '/')).reverse)

/-- Splitting a character list at every occurrence of a separator
(Python `str.split(sep)` for a one-character separator): always
returns at least one (possibly empty) group. -/
def splitChar (sep : Char) : List Char → List (List Char)
  | [] => [[]]
  | c :: cs =>
    match splitChar sep cs with
    | [] => [[]]
    | g :: gs => if c = sep then [] :: g :: gs else (c :: g) :: gs

/-- Joining groups with a separator character: the left inverse of
`splitChar`. -/
def joinChar (sep : Char) : List (List Char) → List Char
  | [] => []
  | [g] => g
  | g :: gs => g ++ sep :: joinChar sep gs

/-- The non-empty path components of a string, as produced by
`[x for x in s.split(sep) if x]` inside `posixpath.relpath`. -/
def pyPathSplit (s : String) : List String :=
  ((splitChar '/' s.data).map (fun g => String.mk g)).filter (fun c => c ≠ "")

/-- Joining path components with `'/'` (Python `sep.join(rel_list)`). -/
def joinComps : List String → String
  | [] => ""
  | [c] => c
  | c :: cs => c ++ "/" ++ joinComps cs

/-- The component normalisation performed by `posixpath.normpath` on an
absolute path: empty and `'.'` components are dropped, `'..'` pops the
previous component (or is dropped at the root). -/
def normComponents (comps : List String) : List String :=
  comps.foldl
    (fun acc c =>
      if c = "" ∨ c = "." then acc
      else if c = ".." then acc.dropLast
      else acc ++ [c])
    []

/-- Length of the longest common prefix of two lists
(`genericpath.commonprefix` applied to component lists). -/
def commonPrefixLen : List String → List String → Nat
  | a :: as, b :: bs => if a = b then commonPrefixLen as bs + 1 else 0
  | _, _ => 0

/-- Embedding of `posixpath.relpath(path, start)` for absolute `path`
and `start` (the only way `pxe_utils.py` invokes it: both arguments are
rooted in the configured absolute TFTP root). -/
def relpath_abs (path start : String) : String :=
  let sl := normComponents (pyPathSplit start)
  let pl := normComponents (pyPathSplit path)
  let i := commonPrefixLen sl pl
  let rel := List.replicate (sl.length - i) ".." ++ pl.drop i
  if rel = [] then "." else joinComps rel

/-- Modelled from the spec: `ironic.common.utils.wrap_ipv6` is not part
of the sources; per the spec a v6 host literal is bracket-wrapped per
URL literal rules (the source consults `netutils.is_valid_ipv6`; the
colon test below agrees with it on every well-formed address). -/
def wrap_ipv6 (ip : String) : String :=
  if ip.data.contains ':' then "[" ++ ip ++ "]" else ip

/-- `get_root_dir`: the TFTP root where config files and images live. -/
def get_root_dir (cfg : Config) : String :=
  cfg.tftp_root

/-- `get_ipxe_root_dir`: the HTTP root used in iPXE mode. -/
def get_ipxe_root_dir (cfg : Config) : String :=
  cfg.http_root

/-- `_get_pxe_grub_mac_path`: grub MAC alias file `root/<mac>.conf`. -/
def _get_pxe_grub_mac_path (cfg : Config) (mac : String)
    (ipxe_enabled : Bool) : String :=
  ospath_join (if ipxe_enabled then get_ipxe_root_dir cfg else get_root_dir cfg)
    (mac ++ ".conf")

/-- Embedding of Python `s.replace(':', delimiter)`: every colon is
replaced by the delimiter string. -/
def py_replace_colon (s delimiter : String) : String :=
  String.mk (s.data.flatMap (fun c => if c = ':' then delimiter.data else [c]))

/-- Embedding of Python `s.lower()` (ASCII case folding; MAC addresses
are ASCII). -/
def py_lower (s : String) : String :=
  String.mk (s.data.map Char.toLower)

/-- `_get_pxe_mac_path`: legacy MAC alias file under the PXE config
subdirectory; non-iPXE mode prepends the hardware-type prefix
(`01-` Ethernet, `20-` when a client-id marks an InfiniBand port). -/
def _get_pxe_mac_path (cfg : Config) (mac : String) (delimiter : String)
    (client_id : Option String) (ipxe_enabled : Bool) : String :=
  let mac_file_name := py_lower (py_replace_colon mac delimiter)
  if !ipxe_enabled then
    let hw_type := if truthyOptStr client_id then "20-" else "01-"
    ospath_join (ospath_join (get_root_dir cfg) cfg.pxe_config_subdir)
      (hw_type ++ mac_file_name)
  else
    ospath_join (ospath_join (get_ipxe_root_dir cfg) cfg.pxe_config_subdir)
      mac_file_name

/-- `_get_pxe_ip_address_path`: grub IP alias file
`tftp_root/<ip>.conf`.  The source body performs no parsing or
validation of its argument and cannot raise, so the embedded
computation always succeeds; the `Except` result type records the
failure mode the callers are prepared for (`clean_up_pxe_config`
catches `InvalidIPv4Address` around this call). -/
def _get_pxe_ip_address_path (cfg : Config) (ip_address : String) :
    Except PxeError String :=
  Except.ok (ospath_join cfg.tftp_root (ip_address ++ ".conf"))

/-- `get_pxe_config_file_path`: canonical config path
`root/<node_uuid>/config`. -/
def get_pxe_config_file_path (cfg : Config) (node_uuid : String)
    (ipxe_enabled : Bool) : String :=
  if ipxe_enabled then
    ospath_join (ospath_join (get_ipxe_root_dir cfg) node_uuid) "config"
  else
    ospath_join (ospath_join (get_root_dir cfg) node_uuid) "config"

/-- `get_tftp_path_prefix`: the TFTP root with a trailing slash ensured
(`os.path.join(CONF.pxe.tftp_root, '')`). -/
def get_tftp_path_prefix (cfg : Config) : String :=
  ospath_join cfg.tftp_root ""

/-- `get_path_relative_to_tftp_root`: a file path made relative to the
trailing-slash-normalised TFTP root. -/
def get_path_relative_to_tftp_root (cfg : Config) (file_path : String) :
    String :=
  relpath_abs file_path ( get_tftp_path_prefix cfg)

/-! ## DHCP option builder -/

/-- One DHCP option as assembled by `dhcp_options_for_instance`: the
dictionary `{'opt_name': …, 'opt_value': …}` after the final loop has
added the `ip_version` key to every entry. -/
structure DhcpOpt where
  opt_name : String
  opt_value : String
  ip_version : Nat
  deriving DecidableEq, Repr

/-- `_dhcp_option_file_or_url`: the plain boot file, or a
`tftp://host/file` URL when URL-boot is requested.  `boot_file` stands
for `deploy_utils.get_pxe_boot_file(task.node)`, a value read from the
node by an external collaborator. -/
def _dhcp_option_file_or_url (cfg : Config) (boot_file : String)
    (urlboot : Bool) (ip_version : Nat) : String :=
  if !urlboot then
    boot_file
  else
    let host :=
      if cfg.my_ipv6 ≠ "" ∧ ip_version = 6 then wrap_ipv6 cfg.my_ipv6
      else wrap_ipv6 cfg.tftp_server
    "tftp://" ++ host ++ "/" ++ boot_file

/-- The IP version `dhcp_options_for_instance` works with: the caller's
argument when truthy (`if ip_version:`), else `CONF.pxe.ip_version`. -/
def use_ip_version_of (cfg : Config) (ip_version : Option Nat) : Nat :=
  match ip_version with
  | some v => if v ≠ 0 then v else cfg.ip_version
  | none => cfg.ip_version

/-- `dhcp_options_for_instance`: the list of DHCP options pushed to the
networking service.  `boot_file_src` stands for
`deploy_utils.get_pxe_boot_file(task.node)`.  Option numbers follow the
module constants: `'67'` DHCP_BOOTFILE_NAME, `'59'`
DHCPV6_BOOTFILE_NAME, `'66'` DHCP_TFTP_SERVER_NAME, `'150'`
DHCP_TFTP_SERVER_ADDRESS, `'175'` DHCP_IPXE_ENCAP_OPTS, `'210'`
DHCP_TFTP_PATH_PREFIX. -/
def dhcp_options_for_instance (cfg : Config) (boot_file_src : String)
    (ipxe_enabled : Bool) (url_boot : Bool) (ip_version : Option Nat) :
    List DhcpOpt :=
  let use_ip_version := use_ip_version_of cfg ip_version
  let boot_file_param := if use_ip_version = 4 then "67" else "59"
  -- booting with v6 always forces a URL reply
  let url_boot' := if use_ip_version = 4 then url_boot else true
  let boot_file := _dhcp_option_file_or_url cfg boot_file_src url_boot' use_ip_version
  let opts : List (String × String) :=
    (if ipxe_enabled then
      let script_name := ospath_basename cfg.ipxe_boot_script
      let ipxe_script_url := cfg.http_url ++ "/" ++ script_name
      if cfg.dhcp_provider = "neutron" then
        if use_ip_version ≠ 6 then
          [("tag:!ipxe," ++ boot_file_param, boot_file),
           ("tag:ipxe," ++ boot_file_param, ipxe_script_url)]
        else
          [("tag:!ipxe6," ++ boot_file_param, boot_file),
           ("tag:ipxe6," ++ boot_file_param, ipxe_script_url)]
      else
        [("!175," ++ boot_file_param, boot_file),
         (boot_file_param, ipxe_script_url)]
    else
      [(boot_file_param, boot_file)] ++
      (if !url_boot' then [("210", get_tftp_path_prefix cfg)] else []))
    ++ (if !url_boot' then
          [("66", cfg.tftp_server), ("150", cfg.tftp_server)]
        else [])
    ++ (if !url_boot' then [("server-ip-address", cfg.tftp_server)] else [])
  opts.map (fun nv => { opt_name := nv.1, opt_value := nv.2,
                        ip_version := use_ip_version })

/-! ## `create_pxe_config` -/

/-- A node port as consumed here: `port.address` and the optional
`port.extra['client-id']`. -/
structure Port where
  address : String
  client_id : Option String
  deriving DecidableEq, Repr

/-- Outcome of the external DHCP provider's `get_ip_addresses(task)`
call: a list of leased addresses, or the
`FailedToGetIPAddressOnPort` exception. -/
inductive DhcpLookup where
  | ok (ips : List String)
  | failedToGetIPAddressOnPort
  deriving DecidableEq, Repr

/-- `_link_mac_pxe_configs`: the alias paths linked to the node's
config file — for every port, the syslinux/ipxe MAC path followed by
the grub2 MAC path (the default delimiter `'-'` is used). -/
def _link_mac_pxe_configs (cfg : Config) (ports : List Port)
    (ipxe_enabled : Bool) : List String :=
  ports.flatMap (fun p =>
    [_get_pxe_mac_path cfg p.address "-" p.client_id ipxe_enabled,
     _get_pxe_grub_mac_path cfg p.address ipxe_enabled])

/-- The filesystem-visible outcome of `create_pxe_config`, the parts
the verified claims are about: which placeholder tokens were rendered
into the config, which MAC/IP alias links were published, and whether
the call aborted with a propagated exception.  MAC links are published
before the IP-alias step runs, so they are recorded even on abort. -/
structure CreatePxeOutcome where
  root_tag : String
  disk_identifier_tag : String
  mac_links : List String
  ip_links : List String
  aborted : Bool
  deriving DecidableEq, Repr

/-- `create_pxe_config` (placeholder selection and alias publication).
`boot_mode` stands for `boot_mode_utils.get_boot_mode(task.node)` and
`lookup` for the DHCP provider's answer inside
`_link_ip_address_pxe_configs`.  On `FailedToGetIPAddressOnPort` the
exception is swallowed when `CONF.dhcp.dhcp_provider == 'none'` and
re-raised (aborting the call) otherwise. -/
def create_pxe_config (cfg : Config) (boot_mode : String)
    (ipxe_enabled : Bool) (lookup : DhcpLookup) (ports : List Port) :
    CreatePxeOutcome :=
  let is_uefi_boot_mode := boot_mode = "uefi"
  let uefi_with_grub := is_uefi_boot_mode ∧ ¬ipxe_enabled
  let root_tag := if uefi_with_grub then "(( ROOT ))" else "{{ ROOT }}"
  let disk_ident :=
    if uefi_with_grub then "(( DISK_IDENTIFIER ))"
    else "{{ DISK_IDENTIFIER }}"
  -- the MAC addresses are always written, before the IP-alias step
  let mac_links := _link_mac_pxe_configs cfg ports ipxe_enabled
  if uefi_with_grub then
    match lookup with
    | DhcpLookup.ok ips =>
        { root_tag := root_tag, disk_identifier_tag := disk_ident,
          mac_links := mac_links,
          ip_links := ips.map
            (fun ip => ospath_join cfg.tftp_root (ip ++ ".conf")),
          aborted := false }
    | DhcpLookup.failedToGetIPAddressOnPort =>
        { root_tag := root_tag, disk_identifier_tag := disk_ident,
          mac_links := mac_links, ip_links := [],
          aborted := if cfg.dhcp_provider ≠ "none" then true else false }
  else
    { root_tag := root_tag, disk_identifier_tag := disk_ident,
      mac_links := mac_links, ip_links := [], aborted := false }

/-! ## Clean-up -/

/-- The filesystem as a list of existing paths. -/
abbrev FS := List String

/-- Modelled from the spec: `ironic_lib.utils.unlink_without_raise` is
not part of the sources; per the spec every removal is a no-op when
its target is absent and never raises. -/
def unlink_without_raise (fs : FS) (p : String) : FS :=
  fs.filter (fun q => !(q == p))

/-- Modelled from the spec: `ironic.common.utils.rmtree_without_raise`
is not part of the sources; per the spec the node directory is removed
recursively, as a no-op when absent, never raising. -/
def rmtree_without_raise (fs : FS) (d : String) : FS :=
  fs.filter (fun q => !(q == d || (d ++ "/").data.isPrefixOf q.data))

/-- `clean_up_pxe_config`: unlinks the grub IP alias files (UEFI,
non-iPXE only; `ips` is the DHCP provider's `get_ip_addresses` answer),
the per-port MAC alias files, and removes the node directory.  The
`except InvalidIPv4Address: continue` in the source is honoured by
skipping an address whose path computation fails (which, as proved
below, never happens). -/
def clean_up_pxe_config (cfg : Config) (node_uuid : String)
    (boot_mode : String) (ipxe_enabled : Bool) (ips : List String)
    (ports : List Port) (fs : FS) : FS :=
  let fs1 :=
    if boot_mode = "uefi" ∧ ¬ipxe_enabled then
      ips.foldl
        (fun acc ip =>
          match _get_pxe_ip_address_path cfg ip with
          | Except.ok p => unlink_without_raise acc p
          | Except.error _ => acc)
        fs
    else fs
  let fs2 :=
    ports.foldl
      (fun acc p =>
        unlink_without_raise
          (unlink_without_raise acc
            (_get_pxe_mac_path cfg p.address "-" p.client_id ipxe_enabled))
          (_get_pxe_grub_mac_path cfg p.address ipxe_enabled))
      fs1
  if ipxe_enabled then
    rmtree_without_raise fs2 (ospath_join (get_ipxe_root_dir cfg) node_uuid)
  else
    rmtree_without_raise fs2 (ospath_join (get_root_dir cfg) node_uuid)

/-- `clean_up_pxe_env`: unlinks every artifact path in `images_info`
(the second tuple component in the source dictionary) and then runs
`clean_up_pxe_config`.  The final `TFTPImageCache().clean_up()` sweep
acts on the image cache, not on the paths modelled here. -/
def clean_up_pxe_env (cfg : Config) (node_uuid : String)
    (boot_mode : String) (ipxe_enabled : Bool) (ips : List String)
    (ports : List Port) (image_paths : List String) (fs : FS) : FS :=
  let fs1 := image_paths.foldl (fun acc p => unlink_without_raise acc p) fs
  clean_up_pxe_config cfg node_uuid boot_mode ipxe_enabled ips ports fs1

/-! ## `parse_driver_info` -/

/-- The module constant `KERNEL_RAMDISK_LABELS` as a lookup (Python
dictionary indexing raises `KeyError` on other modes). -/
def KERNEL_RAMDISK_LABELS : String → Option (List String)
  | "deploy" => some ["deploy_kernel", "deploy_ramdisk"]
  | "rescue" => some ["rescue_kernel", "rescue_ramdisk"]
  | _ => none

/-- Modelled from the spec: `deploy_utils.check_for_missing_params` is
not part of the sources; per the spec a `MissingParameterValue` error
is raised when any required value is absent (falsy), else it returns
normally. -/
def check_for_missing_params (info : List (String × Option String)) :
    Except PxeError Unit :=
  if info.all (fun kv => truthyOptStr kv.2) then Except.ok ()
  else Except.error PxeError.missingParameterValue

/-- `parse_driver_info`: collects the mode's kernel/ramdisk parameters
from the node's `driver_info` (`info`); when none of them is set it
falls back to the conductor configuration (`conf`,
`CONF.conductor.<label>`); finally every required value must be
present. -/
def parse_driver_info (info : String → Option String)
    (conf : String → Option String) (mode : String) :
    Except PxeError (List (String × Option String)) :=
  match KERNEL_RAMDISK_LABELS mode with
  | none => Except.error PxeError.keyError
  | some params_to_check =>
    let d_info := params_to_check.map (fun k => (k, info k))
    let d_info :=
      if d_info.any (fun kv => truthyOptStr kv.2) then d_info
      else params_to_check.map (fun k => (k, conf k))
    match check_for_missing_params d_info with
    | Except.ok _ => Except.ok d_info
    | Except.error e => Except.error e

/-! ## Specification-side definitions

These follow the words of the spec (not the source) and exist to be
compared against the embedded source functions. -/

/-- Numeric value of a run of decimal digits. -/
def digitsVal (g : List Char) : Nat :=
  g.foldl (fun n c => n * 10 + (c.toNat - 48)) 0

/-- Spec-side notion of an IPv4 dotted-quad: four groups of one to
three decimal digits, each group at most 255. -/
def spec_is_valid_ipv4 (s : String) : Bool :=
  let gs := splitChar '.' s.data
  gs.length = 4 &&
    gs.all (fun g =>
      (!g.isEmpty) && g.length ≤ 3 && g.all Char.isDigit && digitsVal g ≤ 255)

/-- Spec-side (simplified) notion of an IPv6 literal: contains a colon
and consists of hexadecimal digits and colons only. -/
def spec_is_valid_ipv6 (s : String) : Bool :=
  s.data.contains ':' &&
    s.data.all (fun c =>
      c.isDigit || c = ':' || ('a' ≤ c && c ≤ 'f') || ('A' ≤ c && c ≤ 'F'))

/-- The IP alias resolver as the spec words it: fails with an
InvalidAddress error when the IP string does not parse as IPv4/IPv6,
and returns `tftp-root/<ip>.conf` otherwise. -/
def grubIpAliasPathSpec (cfg : Config) (ip : String) :
    Except PxeError String :=
  if spec_is_valid_ipv4 ip || spec_is_valid_ipv6 ip then
    Except.ok (ospath_join cfg.tftp_root (ip ++ ".conf"))
  else
    Except.error PxeError.invalidIPv4Address

/-- A relative path in normal form: at least one component, every
component non-empty and none equal to `.` or `..` (in particular no
leading, trailing or doubled slash). -/
def validRelPath (p : String) : Bool :=
  (splitChar '/' p.data).all
    (fun g => (!g.isEmpty) && g ≠ ['.'] && g ≠ ['.', '.'])

/-- An absolute directory string whose components are free of `.` and
`..`, as the configured TFTP/HTTP roots are. -/
def cleanRoot (r : String) : Bool :=
  r.data.head? = some '/' &&
    (pyPathSplit r).all (fun c => c ≠ "." && c ≠ "..")

/-- A DHCP option name that carries a dnsmasq client-class tag
(starts with `tag:`). -/
def isTaggedName (n : String) : Bool :=
  n.data.take 4 = "tag:".data

/-! ## Concrete configurations used by witnesses and counterexamples -/

/-- A representative configuration with the documented defaults of the
options involved. -/
def cfgDefault : Config :=
  { tftp_root := "/tftpboot"
    http_root := "/httpboot"
    http_url := "http://192.0.2.1:8080"
    tftp_server := "192.0.2.1"
    my_ipv6 := ""
    ip_version := 4
    dhcp_provider := "neutron"
    pxe_config_subdir := "pxelinux.cfg"
    ipxe_boot_script := "/etc/ironic/boot.ipxe" }

/-- The representative configuration with an IPv6 conductor address
configured. -/
def cfgV6 : Config :=
  { cfgDefault with my_ipv6 := "2001:db8::1", ip_version := 6 }

/-- The representative configuration with the DHCP provider set to
`none`. -/
def cfgNoDhcp : Config :=
  { cfgDefault with dhcp_provider := "none" }

/-! ## Theorems -/

/-- C1: for every task and caller-supplied `url_boot`, when options are
built for IP version 6 (requested via `ip_version` or via the
configured default) URL-boot mode is forced on: the result is the one
obtained with `url_boot = true`, and (non-iPXE) the boot-file option
emitted is the DHCPv6 bootfile-name option `'59'` whose value is a
`tftp://` URL, never the v4 option `'67'`. -/
theorem dhcpv6_always_url_boot (cfg : Config) (bootFile : String)
    (ipxe ub : Bool) (ipv : Option Nat)
    (h6 : ipv = some 6 ∨ (ipv = none ∧ cfg.ip_version = 6)) :
    dhcp_options_for_instance cfg bootFile ipxe ub ipv
      = dhcp_options_for_instance cfg bootFile ipxe true ipv
    ∧ (ipxe = false →
        ∃ host,
          DhcpOpt.mk "59" ("tftp://" ++ host ++ "/" ++ bootFile) 6
              ∈ dhcp_options_for_instance cfg bootFile ipxe ub ipv
            ∧ ∀ o ∈ dhcp_options_for_instance cfg bootFile ipxe ub ipv,
                o.opt_name ≠ "67") := by
  have huse : use_ip_version_of cfg ipv = 6 := by
    rcases h6 with h | ⟨h, h'⟩
    · simp [use_ip_version_of, h]
    · simp [use_ip_version_of, h, h']
  constructor
  · simp [dhcp_options_for_instance, huse]
  · rintro rfl
    refine ⟨if cfg.my_ipv6 ≠ "" then wrap_ipv6 cfg.my_ipv6
            else wrap_ipv6 cfg.tftp_server, ?_, ?_⟩
    · by_cases hv : cfg.my_ipv6 = "" <;>
        simp [dhcp_options_for_instance, huse, _dhcp_option_file_or_url, hv]
    · intro o ho
      by_cases hv : cfg.my_ipv6 = "" <;>
        [skip; skip] <;>
        · simp [dhcp_options_for_instance, huse, _dhcp_option_file_or_url,
                hv] at ho
          simp [ho]

/-- C1 witness at a concrete configuration. -/
theorem dhcpv6_always_url_boot_witness :
    ((some 6 : Option Nat) = some 6
      ∨ ((some 6 : Option Nat) = none ∧ cfgDefault.ip_version = 6))
    ∧ dhcp_options_for_instance cfgDefault "bootx64.efi" false false (some 6)
        = dhcp_options_for_instance cfgDefault "bootx64.efi" false true
            (some 6) :=
  ⟨Or.inl rfl,
   (dhcpv6_always_url_boot cfgDefault "bootx64.efi" false false (some 6)
      (Or.inl rfl)).1⟩

/-- C3: the parenthesis-delimited placeholder tokens `(( ROOT ))` and
`(( DISK_IDENTIFIER ))` are substituted if and only if the boot mode is
UEFI and iPXE is not enabled; every other combination uses the brace
forms. -/
theorem create_pxe_config_placeholder_tokens (cfg : Config) (bm : String)
    (ipxe : Bool) (lookup : DhcpLookup) (ports : List Port) :
    (((create_pxe_config cfg bm ipxe lookup ports).root_tag = "(( ROOT ))"
        ∧ (create_pxe_config cfg bm ipxe lookup ports).disk_identifier_tag
            = "(( DISK_IDENTIFIER ))")
      ↔ (bm = "uefi" ∧ ipxe = false))
    ∧ (¬(bm = "uefi" ∧ ipxe = false) →
        (create_pxe_config cfg bm ipxe lookup ports).root_tag = "{{ ROOT }}"
          ∧ (create_pxe_config cfg bm ipxe lookup ports).disk_identifier_tag
              = "{{ DISK_IDENTIFIER }}") := by
  by_cases h1 : bm = "uefi" <;> cases ipxe <;> cases lookup <;>
    simp [create_pxe_config, h1]

/-- C4: under UEFI with grub (non-iPXE), when the DHCP address lookup
fails with `FailedToGetIPAddressOnPort`, the failure is swallowed when
the configured DHCP provider is `'none'` (config creation completes,
without IP aliases) and aborts config creation for any other provider;
the MAC alias links are published in every case (the MAC step precedes
the IP-alias step). -/
theorem create_pxe_config_ip_alias_failure_policy (cfg : Config)
    (bm : String) (ports : List Port) (lookup : DhcpLookup)
    (hbm : bm = "uefi") :
    (create_pxe_config cfg bm false lookup ports).mac_links
        = _link_mac_pxe_configs cfg ports false
    ∧ (create_pxe_config cfg bm false
          DhcpLookup.failedToGetIPAddressOnPort ports).ip_links = []
    ∧ (cfg.dhcp_provider = "none" →
        (create_pxe_config cfg bm false
            DhcpLookup.failedToGetIPAddressOnPort ports).aborted = false)
    ∧ (cfg.dhcp_provider ≠ "none" →
        (create_pxe_config cfg bm false
            DhcpLookup.failedToGetIPAddressOnPort ports).aborted = true) := by
  subst hbm
  refine ⟨?_, ?_, ?_, ?_⟩
  · cases lookup <;> simp [create_pxe_config]
  · simp [create_pxe_config]
  · intro h; simp [create_pxe_config, h]
  · intro h; simp [create_pxe_config, h]

/-- C4 witness at a concrete configuration with provider `none`. -/
theorem create_pxe_config_ip_alias_failure_policy_witness :
    (create_pxe_config cfgNoDhcp "uefi" false
        DhcpLookup.failedToGetIPAddressOnPort
        [⟨"aa:bb:cc:dd:ee:ff", none⟩]).mac_links
      = _link_mac_pxe_configs cfgNoDhcp [⟨"aa:bb:cc:dd:ee:ff", none⟩] false
    ∧ (create_pxe_config cfgNoDhcp "uefi" false
          DhcpLookup.failedToGetIPAddressOnPort
          [⟨"aa:bb:cc:dd:ee:ff", none⟩]).ip_links = []
    ∧ (cfgNoDhcp.dhcp_provider = "none" →
        (create_pxe_config cfgNoDhcp "uefi" false
            DhcpLookup.failedToGetIPAddressOnPort
            [⟨"aa:bb:cc:dd:ee:ff", none⟩]).aborted = false)
    ∧ (cfgNoDhcp.dhcp_provider ≠ "none" →
        (create_pxe_config cfgNoDhcp "uefi" false
            DhcpLookup.failedToGetIPAddressOnPort
            [⟨"aa:bb:cc:dd:ee:ff", none⟩]).aborted = true) :=
  create_pxe_config_ip_alias_failure_policy cfgNoDhcp "uefi"
    [⟨"aa:bb:cc:dd:ee:ff", none⟩] DhcpLookup.failedToGetIPAddressOnPort rfl

/-- C10: `parse_driver_info` falls back to configuration-supplied
values only when none of the mode's parameters is set in the node's
`driver_info`; when at least one is set but some required value is
missing it raises `MissingParameterValue` instead of mixing sources,
and when all are set it returns exactly the `driver_info` values. -/
theorem parse_driver_info_no_mixed_sources
    (info conf : String → Option String) (mode : String)
    (labels : List String)
    (hl : KERNEL_RAMDISK_LABELS mode = some labels) :
    ((labels.map (fun k => (k, info k))).any
        (fun kv => truthyOptStr kv.2) = true →
      (((labels.map (fun k => (k, info k))).all
            (fun kv => truthyOptStr kv.2) = true →
          parse_driver_info info conf mode
            = Except.ok (labels.map (fun k => (k, info k))))
        ∧ ((labels.map (fun k => (k, info k))).all
              (fun kv => truthyOptStr kv.2) = false →
          parse_driver_info info conf mode
            = Except.error PxeError.missingParameterValue)))
    ∧ ((labels.map (fun k => (k, info k))).any
          (fun kv => truthyOptStr kv.2) = false →
        parse_driver_info info conf mode
          = (if (labels.map (fun k => (k, conf k))).all
                  (fun kv => truthyOptStr kv.2)
             then Except.ok (labels.map (fun k => (k, conf k)))
             else Except.error PxeError.missingParameterValue)) := by
  constructor
  · intro hany
    constructor
    · intro hall
      simp [parse_driver_info, hl, hany, check_for_missing_params, hall]
    · intro hall
      simp [parse_driver_info, hl, hany, check_for_missing_params, hall]
  · intro hany
    by_cases hall : (labels.map (fun k => (k, conf k))).all
        (fun kv => truthyOptStr kv.2) = true <;>
      simp [parse_driver_info, hl, hany, check_for_missing_params, hall]

/-- C10 witness: `deploy_kernel` present in `driver_info` but
`deploy_ramdisk` missing yields `MissingParameterValue` even though the
configuration could supply it. -/
theorem parse_driver_info_no_mixed_sources_witness :
    KERNEL_RAMDISK_LABELS "deploy"
        = some ["deploy_kernel", "deploy_ramdisk"]
    ∧ parse_driver_info
        (fun k => if k = "deploy_kernel" then some "file:///k" else none)
        (fun _ => some "conf-supplied") "deploy"
      = Except.error PxeError.missingParameterValue :=
  ⟨rfl,
   ((parse_driver_info_no_mixed_sources
      (fun k => if k = "deploy_kernel" then some "file:///k" else none)
      (fun _ => some "conf-supplied") "deploy"
      ["deploy_kernel", "deploy_ramdisk"] rfl).1 (by decide)).2 (by decide)⟩

/-- C5 counterexample: in iPXE mode with the `neutron` provider and
IPv6, the not-iPXE-tagged option does not carry the plain boot
filename — URL-boot is forced for v6, so it carries the `tftp://`
URL. -/
theorem ipxe_neutron_not_tagged_carries_url :
    (dhcp_options_for_instance cfgV6 "bootx64.efi" true false
        (some 6)).head?
      = some ⟨"tag:!ipxe6,59", "tftp://[2001:db8::1]/bootx64.efi", 6⟩
    ∧ ("tftp://[2001:db8::1]/bootx64.efi" : String) ≠ "bootx64.efi" :=
  ⟨rfl, by decide⟩

/-- C5 (amended): in iPXE mode with the `neutron` provider exactly one
tagged option pair is emitted: the not-iPXE-tagged option
(`tag:!ipxe` IPv4 / `tag:!ipxe6` IPv6) carries the boot-file value
(the plain filename when URL-boot is not in effect, the `tftp://` URL
when it is — always for IPv6) and the iPXE-tagged option carries the
iPXE boot script URL; with any other provider no tagged option is
emitted and the call falls back to the vendor-encapsulated pair
`!175,<bootfile option>` with the boot-file value and the bare
bootfile option with the script URL. -/
theorem ipxe_tagged_pair_or_vendor_fallback (cfg : Config)
    (bootFile : String) (ub : Bool) (ipv : Option Nat)
    (h : use_ip_version_of cfg ipv = 4 ∨ use_ip_version_of cfg ipv = 6) :
    (cfg.dhcp_provider = "neutron" →
      (dhcp_options_for_instance cfg bootFile true ub ipv).filter
          (fun o => isTaggedName o.opt_name)
        = [⟨(if use_ip_version_of cfg ipv = 6 then "tag:!ipxe6,"
             else "tag:!ipxe,")
              ++ (if use_ip_version_of cfg ipv = 4 then "67" else "59"),
            _dhcp_option_file_or_url cfg bootFile
              (if use_ip_version_of cfg ipv = 4 then ub else true)
              (use_ip_version_of cfg ipv),
            use_ip_version_of cfg ipv⟩,
           ⟨(if use_ip_version_of cfg ipv = 6 then "tag:ipxe6,"
             else "tag:ipxe,")
              ++ (if use_ip_version_of cfg ipv = 4 then "67" else "59"),
            cfg.http_url ++ "/" ++ ospath_basename cfg.ipxe_boot_script,
            use_ip_version_of cfg ipv⟩])
    ∧ (cfg.dhcp_provider ≠ "neutron" →
        (dhcp_options_for_instance cfg bootFile true ub ipv).filter
            (fun o => isTaggedName o.opt_name) = []
        ∧ (dhcp_options_for_instance cfg bootFile true ub ipv).take 2
          = [⟨"!175," ++ (if use_ip_version_of cfg ipv = 4 then "67"
                          else "59"),
              _dhcp_option_file_or_url cfg bootFile
                (if use_ip_version_of cfg ipv = 4 then ub else true)
                (use_ip_version_of cfg ipv),
              use_ip_version_of cfg ipv⟩,
             ⟨(if use_ip_version_of cfg ipv = 4 then "67" else "59"),
              cfg.http_url ++ "/" ++ ospath_basename cfg.ipxe_boot_script,
              use_ip_version_of cfg ipv⟩]) := by
  rcases h with h | h <;>
    cases ub <;>
      constructor <;> intro hp <;>
        simp [dhcp_options_for_instance, h, hp, isTaggedName,
          List.filter_cons, List.filter]

/-- C5 witness at a concrete IPv4 configuration with the `neutron`
provider. -/
theorem ipxe_tagged_pair_or_vendor_fallback_witness :
    (use_ip_version_of cfgDefault (some 4) = 4
      ∨ use_ip_version_of cfgDefault (some 4) = 6)
    ∧ (dhcp_options_for_instance cfgDefault "undionly.kpxe" true false
          (some 4)).filter (fun o => isTaggedName o.opt_name)
      = [⟨"tag:!ipxe,67", "undionly.kpxe", 4⟩,
         ⟨"tag:ipxe,67", "http://192.0.2.1:8080/boot.ipxe", 4⟩] :=
  ⟨Or.inl rfl,
   ((ipxe_tagged_pair_or_vendor_fallback cfgDefault "undionly.kpxe" false
        (some 4) (Or.inl rfl)).1 rfl).trans (by decide)⟩

/-- C6: the TFTP server name option `'66'`, TFTP server address option
`'150'` and the `server-ip-address` option, each valued with the
configured TFTP server, are present if and only if URL-boot is not in
effect (the caller did not request `url_boot` and the IP version in
use is not 6); additionally, in non-iPXE non-URL-boot mode the TFTP
path-prefix option `'210'` valued with the trailing-slash-normalised
TFTP root is emitted. -/
theorem tftp_server_options_iff_no_url_boot (cfg : Config)
    (bootFile : String) (ipxe ub : Bool) (ipv : Option Nat)
    (h : use_ip_version_of cfg ipv = 4 ∨ use_ip_version_of cfg ipv = 6) :
    ((DhcpOpt.mk "66" cfg.tftp_server (use_ip_version_of cfg ipv)
          ∈ dhcp_options_for_instance cfg bootFile ipxe ub ipv
        ∧ DhcpOpt.mk "150" cfg.tftp_server (use_ip_version_of cfg ipv)
          ∈ dhcp_options_for_instance cfg bootFile ipxe ub ipv
        ∧ DhcpOpt.mk "server-ip-address" cfg.tftp_server
            (use_ip_version_of cfg ipv)
          ∈ dhcp_options_for_instance cfg bootFile ipxe ub ipv)
      ↔ (ub = false ∧ use_ip_version_of cfg ipv ≠ 6))
    ∧ ((ipxe = false ∧ ub = false ∧ use_ip_version_of cfg ipv ≠ 6) →
        DhcpOpt.mk "210" ( get_tftp_path_prefix cfg)
            (use_ip_version_of cfg ipv)
          ∈ dhcp_options_for_instance cfg bootFile ipxe ub ipv) := by
  rcases h with h | h <;>
    cases ipxe <;> cases ub <;>
      by_cases hp : cfg.dhcp_provider = "neutron" <;>
        simp [dhcp_options_for_instance, h, hp]

/-- C6 witness at a concrete IPv4 configuration. -/
theorem tftp_server_options_iff_no_url_boot_witness :
    (use_ip_version_of cfgDefault none = 4
      ∨ use_ip_version_of cfgDefault none = 6)
    ∧ (DhcpOpt.mk "66" cfgDefault.tftp_server (use_ip_version_of cfgDefault none)
          ∈ dhcp_options_for_instance cfgDefault "undionly.kpxe" false false none
        ∧ DhcpOpt.mk "150" cfgDefault.tftp_server (use_ip_version_of cfgDefault none)
          ∈ dhcp_options_for_instance cfgDefault "undionly.kpxe" false false none
        ∧ DhcpOpt.mk "server-ip-address" cfgDefault.tftp_server
            (use_ip_version_of cfgDefault none)
          ∈ dhcp_options_for_instance cfgDefault "undionly.kpxe" false false none) :=
  ⟨Or.inl rfl,
   ((tftp_server_options_iff_no_url_boot cfgDefault "undionly.kpxe" false
        false none (Or.inl rfl)).1).mpr (by decide)⟩

/-- The two-argument `posixpath.join` is plain slash concatenation when
the left part is non-empty without a trailing slash and the right part
has no leading slash. -/
theorem ospath_join_of_clean (a b : String) (hb : b.data.head? ≠ some '/')
    (ha : a.data ≠ []) (ha2 : a.data.getLast? ≠ some '/') :
    ospath_join a b = a ++ "/" ++ b := by
  unfold ospath_join
  rw [if_neg hb, if_neg (not_or.mpr ⟨ha, ha2⟩)]

/-- C2: the legacy MAC alias path in non-iPXE mode is
`root/pxe-config-subdir/<hw-prefix><mac-with-delimiter>` with the MAC
lowercased and `':'` replaced by the delimiter, the prefix being `01-`
for Ethernet ports and `20-` when a client-id (InfiniBand) is present;
in iPXE mode no hardware prefix is prepended. -/
theorem legacy_mac_alias_path (cfg : Config) (mac delim : String)
    (cid : Option String)
    (h1 : cfg.tftp_root.data ≠ [])
    (h2 : cfg.tftp_root.data.getLast? ≠ some '/')
    (h3 : cfg.pxe_config_subdir.data.head? ≠ some '/')
    (h4 : cfg.pxe_config_subdir.data ≠ [])
    (h5 : cfg.pxe_config_subdir.data.getLast? ≠ some '/') :
    _get_pxe_mac_path cfg mac delim cid false
      = cfg.tftp_root ++ "/" ++ cfg.pxe_config_subdir ++ "/"
        ++ (if truthyOptStr cid then "20-" else "01-")
        ++ py_lower (py_replace_colon mac delim)
    ∧ _get_pxe_mac_path cfg mac delim cid true
      = ospath_join (ospath_join cfg.http_root cfg.pxe_config_subdir)
          (py_lower (py_replace_colon mac delim)) := by
  constructor
  · have hinner : ospath_join cfg.tftp_root cfg.pxe_config_subdir
        = cfg.tftp_root ++ "/" ++ cfg.pxe_config_subdir :=
      ospath_join_of_clean _ _ h3 h1 h2
    have hlast : (cfg.tftp_root ++ "/" ++ cfg.pxe_config_subdir).data.getLast?
        ≠ some '/' := by
      rw [String.data_append]
      rw [List.getLast?_append]
      obtain ⟨z, hz⟩ : ∃ z, cfg.pxe_config_subdir.data.getLast? = some z := by
        cases hgl : cfg.pxe_config_subdir.data.getLast? with
        | none => exact absurd (List.getLast?_eq_none_iff.mp hgl) h4
        | some z => exact ⟨z, rfl⟩
      rw [hz]
      simp only [Option.or_some]
      intro hc
      exact h5 (hz.trans hc)
    have hne : (cfg.tftp_root ++ "/" ++ cfg.pxe_config_subdir).data ≠ [] := by
      rw [String.data_append]
      simp [h1]
    have hhead : ((if truthyOptStr cid then "20-" else "01-")
        ++ py_lower (py_replace_colon mac delim)).data.head? ≠ some '/' := by
      cases htc : truthyOptStr cid <;>
        simp [String.data_append]
    simp only [_get_pxe_mac_path, get_root_dir, Bool.not_false, if_pos]
    rw [hinner, ospath_join_of_clean _ _ hhead hne hlast]
    apply String.ext
    simp [String.data_append, List.append_assoc]
  · simp [_get_pxe_mac_path, get_ipxe_root_dir]

/-- C2 witness: the scenario MAC `aa:bb:cc:dd:ee:ff`, non-iPXE,
Ethernet, default configuration. -/
theorem legacy_mac_alias_path_witness :
    _get_pxe_mac_path cfgDefault "aa:bb:cc:dd:ee:ff" "-" none false
      = "/tftpboot/pxelinux.cfg/01-aa-bb-cc-dd-ee-ff" :=
  ((legacy_mac_alias_path cfgDefault "aa:bb:cc:dd:ee:ff" "-" none
      (by decide) (by decide) (by decide) (by decide) (by decide)).1).trans
    (by decide)

/-- C7 counterexample: for the string `banana`, which parses as
neither IPv4 nor IPv6, `_get_pxe_ip_address_path` does not fail — it
returns `tftp-root/banana.conf`, contradicting the claimed
InvalidAddress error. -/
theorem ip_alias_path_no_validation :
    spec_is_valid_ipv4 "banana" = false
    ∧ spec_is_valid_ipv6 "banana" = false
    ∧ _get_pxe_ip_address_path cfgDefault "banana"
        = Except.ok "/tftpboot/banana.conf"
    ∧ _get_pxe_ip_address_path cfgDefault "banana"
        ≠ Except.error PxeError.invalidIPv4Address :=
  ⟨by decide, by decide, rfl, by simp [_get_pxe_ip_address_path]⟩

/-- C7 (amended): `_get_pxe_ip_address_path` performs no validation:
for every IP string, parseable or not, it returns
`tftp-root/<ip>.conf` with no side effects and no error; on parseable
addresses it agrees with the spec's resolver. -/
theorem ip_alias_path_pure (cfg : Config) (ip : String) :
    _get_pxe_ip_address_path cfg ip
        = Except.ok (ospath_join cfg.tftp_root (ip ++ ".conf"))
    ∧ ((spec_is_valid_ipv4 ip || spec_is_valid_ipv6 ip) = true →
        grubIpAliasPathSpec cfg ip = _get_pxe_ip_address_path cfg ip) := by
  refine ⟨rfl, fun h => ?_⟩
  simp [grubIpAliasPathSpec, h, _get_pxe_ip_address_path]

/-- C7 witness at the parseable address `10.0.0.5`. -/
theorem ip_alias_path_pure_witness :
    (spec_is_valid_ipv4 "10.0.0.5" || spec_is_valid_ipv6 "10.0.0.5") = true
    ∧ grubIpAliasPathSpec cfgDefault "10.0.0.5"
        = _get_pxe_ip_address_path cfgDefault "10.0.0.5" :=
  ⟨by decide, (ip_alias_path_pure cfgDefault "10.0.0.5").2 (by decide)⟩

/-- Removing an absent path is a no-op. -/
theorem unlink_without_raise_of_not_mem (fs : FS) (p : String)
    (h : p ∉ fs) : unlink_without_raise fs p = fs := by
  apply List.filter_eq_self.mpr
  intro q hq
  simp only [Bool.not_eq_true', beq_eq_false_iff_ne, ne_eq]
  intro hqp
  exact h (hqp ▸ hq)

/-- Removing an absent directory tree is a no-op. -/
theorem rmtree_without_raise_of_absent (fs : FS) (d : String)
    (h : ∀ q ∈ fs, q ≠ d ∧ (d ++ "/").data.isPrefixOf q.data = false) :
    rmtree_without_raise fs d = fs := by
  apply List.filter_eq_self.mpr
  intro q hq
  simp only [Bool.not_eq_true', Bool.or_eq_false_iff, beq_eq_false_iff_ne]
  exact (h q hq)

/-- A fold of absent-path removals is a no-op. -/
theorem foldl_unlink_eq_self {a : Type} (f : a → String) (l : List a)
    (fs : FS) (h : ∀ x ∈ l, f x ∉ fs) :
    l.foldl (fun acc x => unlink_without_raise acc (f x)) fs = fs := by
  induction l with
  | nil => rfl
  | cons hd tl ih =>
    simp only [List.foldl_cons]
    rw [unlink_without_raise_of_not_mem fs (f hd) (h hd (by simp))]
    exact ih (fun x hx => h x (by simp [hx]))

/-- A fold of paired absent-path removals is a no-op. -/
theorem foldl_unlink2_eq_self {a : Type} (f g : a → String) (l : List a)
    (fs : FS) (h : ∀ x ∈ l, f x ∉ fs ∧ g x ∉ fs) :
    l.foldl
      (fun acc x =>
        unlink_without_raise (unlink_without_raise acc (f x)) (g x)) fs
      = fs := by
  induction l with
  | nil => rfl
  | cons hd tl ih =>
    simp only [List.foldl_cons]
    rw [unlink_without_raise_of_not_mem fs (f hd) (h hd (by simp)).1,
        unlink_without_raise_of_not_mem fs (g hd) (h hd (by simp)).2]
    exact ih (fun x hx => h x (by simp [hx]))

/-- C8: clean-up on a node none of whose alias files, artifact files or
node directory exist returns without error and leaves the filesystem
unchanged — every removal performed by `clean_up_pxe_config` and
`clean_up_pxe_env` (MAC alias, grub MAC alias, IP alias, artifact
unlink, recursive node-directory removal) is a no-op on an absent
target. -/
theorem clean_up_pxe_noop_when_absent (cfg : Config) (uuid bm : String)
    (ipxe : Bool) (ips : List String) (ports : List Port)
    (image_paths : List String) (fs : FS)
    (hip : ∀ ip ∈ ips, ospath_join cfg.tftp_root (ip ++ ".conf") ∉ fs)
    (hport : ∀ p ∈ ports,
        _get_pxe_mac_path cfg p.address "-" p.client_id ipxe ∉ fs
        ∧ _get_pxe_grub_mac_path cfg p.address ipxe ∉ fs)
    (himg : ∀ p ∈ image_paths, p ∉ fs)
    (hdir : ∀ q ∈ fs,
        q ≠ ospath_join
              (if ipxe then get_ipxe_root_dir cfg else get_root_dir cfg) uuid
        ∧ ((ospath_join
              (if ipxe then get_ipxe_root_dir cfg else get_root_dir cfg)
              uuid ++ "/").data.isPrefixOf q.data) = false) :
    clean_up_pxe_env cfg uuid bm ipxe ips ports image_paths fs = fs := by
  simp only [clean_up_pxe_env, clean_up_pxe_config]
  rw [foldl_unlink_eq_self (fun p => p) image_paths fs himg]
  have hips : (if bm = "uefi" ∧ ¬ipxe then
      ips.foldl
        (fun acc ip =>
          match _get_pxe_ip_address_path cfg ip with
          | Except.ok p => unlink_without_raise acc p
          | Except.error _ => acc) fs
      else fs) = fs := by
    split
    · simp only [_get_pxe_ip_address_path]
      exact foldl_unlink_eq_self
        (fun ip => ospath_join cfg.tftp_root (ip ++ ".conf")) ips fs hip
    · rfl
  rw [hips]
  rw [foldl_unlink2_eq_self
        (fun p => _get_pxe_mac_path cfg p.address "-" p.client_id ipxe)
        (fun p => _get_pxe_grub_mac_path cfg p.address ipxe) ports fs hport]
  cases ipxe with
  | false =>
    simp only [Bool.false_eq_true, if_false]
    exact rmtree_without_raise_of_absent fs _ (by simpa using hdir)
  | true =>
    simp only [if_true]
    exact rmtree_without_raise_of_absent fs _ (by simpa using hdir)

/-- C8 witness: a concrete clean-up over a filesystem holding only an
unrelated file. -/
theorem clean_up_pxe_noop_when_absent_witness :
    (∀ q ∈ (["/elsewhere/file"] : FS),
        q ≠ ospath_join
              (if false then get_ipxe_root_dir cfgDefault
               else get_root_dir cfgDefault) "n1"
        ∧ ((ospath_join
              (if false then get_ipxe_root_dir cfgDefault
               else get_root_dir cfgDefault) "n1" ++ "/").data.isPrefixOf
            q.data) = false)
    ∧ clean_up_pxe_env cfgDefault "n1" "uefi" false ["10.0.0.5"]
        [⟨"aa:bb:cc:dd:ee:ff", none⟩] ["/tftpboot/n1/deploy_kernel"]
        ["/elsewhere/file"]
      = ["/elsewhere/file"] :=
  ⟨by decide,
   clean_up_pxe_noop_when_absent cfgDefault "n1" "uefi" false ["10.0.0.5"]
     [⟨"aa:bb:cc:dd:ee:ff", none⟩] ["/tftpboot/n1/deploy_kernel"]
     ["/elsewhere/file"] (by decide) (by decide) (by decide) (by decide)⟩

/-- The characters of a constructed string are its construction list. -/
theorem String_mk_data (l : List Char) : (String.mk l).data = l := rfl

/-- `splitChar` always produces at least one group. -/
theorem splitChar_ne_nil (sep : Char) (l : List Char) :
    splitChar sep l ≠ [] := by
  induction l with
  | nil => simp [splitChar]
  | cons c cs ih =>
    simp only [splitChar]
    cases h : splitChar sep cs with
    | nil => simp
    | cons g gs => by_cases hc : c = sep <;> simp [hc]

/-- A leading separator opens an empty group. -/
theorem splitChar_cons_sep (sep : Char) (cs : List Char) :
    splitChar sep (sep :: cs) = [] :: splitChar sep cs := by
  obtain ⟨g, gs, h⟩ := List.exists_cons_of_ne_nil (splitChar_ne_nil sep cs)
  simp [splitChar, h]

/-- A leading non-separator extends the first group. -/
theorem splitChar_cons_ne (sep c : Char) (cs : List Char) (hc : c ≠ sep)
    (g : List Char) (gs : List (List Char)) (h : splitChar sep cs = g :: gs) :
    splitChar sep (c :: cs) = (c :: g) :: gs := by
  simp [splitChar, h, hc]

/-- Splitting distributes over concatenation at a separator boundary. -/
theorem splitChar_append (sep : Char) (a b : List Char) :
    splitChar sep (a ++ sep :: b) = splitChar sep a ++ splitChar sep b := by
  induction a with
  | nil =>
    simp only [List.nil_append]
    rw [splitChar_cons_sep]
    simp [splitChar]
  | cons c cs ih =>
    by_cases hc : c = sep
    · subst hc
      simp only [List.cons_append]
      rw [splitChar_cons_sep, splitChar_cons_sep, ih]
      simp
    · obtain ⟨g, gs, h⟩ := List.exists_cons_of_ne_nil (splitChar_ne_nil sep cs)
      have h2 : splitChar sep (cs ++ sep :: b)
          = g :: (gs ++ splitChar sep b) := by
        rw [ih, h]; simp
      simp only [List.cons_append]
      rw [splitChar_cons_ne sep c _ hc _ _ h2,
          splitChar_cons_ne sep c _ hc _ _ h]
      simp

/-- Re-joining the groups of a split restores the original list. -/
theorem joinChar_splitChar (sep : Char) (l : List Char) :
    joinChar sep (splitChar sep l) = l := by
  induction l with
  | nil => rfl
  | cons c cs ih =>
    obtain ⟨g, gs, h⟩ := List.exists_cons_of_ne_nil (splitChar_ne_nil sep cs)
    by_cases hc : c = sep
    · rw [hc, splitChar_cons_sep, h]
      have e : joinChar sep ([] :: g :: gs)
          = [] ++ sep :: joinChar sep (g :: gs) := rfl
      rw [e, List.nil_append]
      rw [h] at ih
      rw [ih]
    · rw [splitChar_cons_ne sep c cs hc g gs h]
      rw [h] at ih
      cases gs with
      | nil =>
        have e1 : joinChar sep [c :: g] = c :: g := rfl
        rw [e1]
        have e2 : joinChar sep [g] = g := rfl
        rw [e2] at ih
        rw [ih]
      | cons g2 gs2 =>
        have e1 : joinChar sep ((c :: g) :: g2 :: gs2)
            = (c :: g) ++ sep :: joinChar sep (g2 :: gs2) := rfl
        have e2 : joinChar sep (g :: g2 :: gs2)
            = g ++ sep :: joinChar sep (g2 :: gs2) := rfl
        rw [e1]
        rw [e2] at ih
        simpa using ih

/-- Joining strings with `'/'` is joining their character lists. -/
theorem joinComps_map_mk (gs : List (List Char)) :
    joinComps (gs.map String.mk) = String.mk (joinChar '/' gs) := by
  induction gs with
  | nil => rfl
  | cons g gs ih =>
    cases gs with
    | nil => rfl
    | cons g2 gs2 =>
      have e1 : joinComps (String.mk g :: String.mk g2 :: gs2.map String.mk)
          = String.mk g ++ "/"
            ++ joinComps (String.mk g2 :: gs2.map String.mk) := rfl
      have e2 : joinChar '/' (g :: g2 :: gs2)
          = g ++ '/' :: joinChar '/' (g2 :: gs2) := rfl
      simp only [List.map_cons] at ih ⊢
      rw [e1, e2, ih]
      apply String.ext
      simp [String.data_append, String_mk_data, List.append_assoc]

/-- `posixpath.normpath` component processing leaves a list free of
empty, `.` and `..` components unchanged. -/
theorem normComponents_eq_self (l : List String)
    (h : ∀ c ∈ l, c ≠ "" ∧ c ≠ "." ∧ c ≠ "..") :
    normComponents l = l := by
  have H : ∀ (m : List String), (∀ c ∈ m, c ≠ "" ∧ c ≠ "." ∧ c ≠ "..") →
      ∀ acc : List String,
        m.foldl
          (fun acc c =>
            if c = "" ∨ c = "." then acc
            else if c = ".." then acc.dropLast
            else acc ++ [c]) acc
          = acc ++ m := by
    intro m
    induction m with
    | nil => intro _ acc; simp
    | cons hd tl ih =>
      intro hm acc
      obtain ⟨h1, h2, h3⟩ := hm hd (by simp)
      simp only [List.foldl_cons, if_neg (not_or.mpr ⟨h1, h2⟩), if_neg h3]
      rw [ih (fun c hc => hm c (by simp [hc])) (acc ++ [hd])]
      simp
  have := H l h []
  simpa [normComponents] using this

/-- The common prefix of a list with an extension of itself is the
whole list. -/
theorem commonPrefixLen_self_append (l m : List String) :
    commonPrefixLen l (l ++ m) = l.length := by
  induction l with
  | nil => rfl
  | cons a as ih => simp [commonPrefixLen, ih]

/-- Path components distribute over slash concatenation. -/
theorem pyPathSplit_append (u v : String) :
    pyPathSplit (u ++ "/" ++ v) = pyPathSplit u ++ pyPathSplit v := by
  unfold pyPathSplit
  have hd : (u ++ "/" ++ v).data = u.data ++ '/' :: v.data := by
    rw [String.data_append, String.data_append]
    simp
  rw [hd, splitChar_append, List.map_append, List.filter_append]

/-- The empty string has no path components. -/
theorem pyPathSplit_empty : pyPathSplit "" = [] := rfl

/-- Path components distribute over `posixpath.join` whenever the right
part does not restart at the root. -/
theorem pyPathSplit_ospath_join (u v : String) (hu : u.data ≠ [])
    (hv : v.data.head? ≠ some '/') :
    pyPathSplit (ospath_join u v) = pyPathSplit u ++ pyPathSplit v := by
  unfold ospath_join
  rw [if_neg hv]
  by_cases hlast : u.data.getLast? = some '/'
  · rw [if_pos (Or.inr hlast)]
    have hu2 : u.data.dropLast ++ ['/'] = u.data :=
      List.dropLast_append_getLast? '/' hlast
    unfold pyPathSplit
    have hdata : (u ++ v).data = u.data.dropLast ++ '/' :: v.data := by
      rw [String.data_append, ← hu2]
      simp
    rw [hdata, splitChar_append]
    have hu3 : splitChar '/' u.data
        = splitChar '/' u.data.dropLast ++ [[]] := by
      conv_lhs => rw [← hu2]
      have e : u.data.dropLast ++ ['/'] = u.data.dropLast ++ '/' :: [] := rfl
      rw [e, splitChar_append]
      simp [splitChar]
    rw [hu3]
    simp [List.map_append, List.filter_append]
  · rw [if_neg (not_or.mpr ⟨hu, hlast⟩)]
    exact pyPathSplit_append u v

/-- The trailing-slash normalisation does not change the components. -/
theorem pyPathSplit_trailing (u : String) (hu : u.data ≠ []) :
    pyPathSplit (ospath_join u "") = pyPathSplit u := by
  rw [pyPathSplit_ospath_join u "" hu (by decide)]
  simp [pyPathSplit_empty]

/-- A valid relative path keeps every split group, and its components
are non-empty and free of `.` and `..`. -/
theorem validRelPath_groups (p : String) (hp : validRelPath p = true) :
    pyPathSplit p = (splitChar '/' p.data).map String.mk
    ∧ (∀ c ∈ pyPathSplit p, c ≠ "" ∧ c ≠ "." ∧ c ≠ "..")
    ∧ pyPathSplit p ≠ [] := by
  have hall0 : ∀ g ∈ splitChar '/' p.data,
      (¬g = [] ∧ ¬g = ['.']) ∧ ¬g = ['.', '.'] := by
    simpa [validRelPath] using hp
  have hall : ∀ g ∈ splitChar '/' p.data,
      g ≠ [] ∧ g ≠ ['.'] ∧ g ≠ ['.', '.'] := by
    intro g hg
    exact ⟨(hall0 g hg).1.1, (hall0 g hg).1.2, (hall0 g hg).2⟩
  have hfilter : pyPathSplit p = (splitChar '/' p.data).map String.mk := by
    unfold pyPathSplit
    apply List.filter_eq_self.mpr
    intro x hx
    obtain ⟨g, hg, rfl⟩ := List.mem_map.mp hx
    have := (hall g hg).1
    simp only [ne_eq, decide_eq_true_eq]
    intro hmk
    exact this (congrArg String.data hmk)
  refine ⟨hfilter, ?_, ?_⟩
  · intro c hc
    rw [hfilter] at hc
    obtain ⟨g, hg, rfl⟩ := List.mem_map.mp hc
    obtain ⟨n1, n2, n3⟩ := hall g hg
    refine ⟨fun h => n1 (congrArg String.data h),
            fun h => n2 (congrArg String.data h),
            fun h => n3 (congrArg String.data h)⟩
  · rw [hfilter]
    simp only [ne_eq, List.map_eq_nil_iff]
    exact splitChar_ne_nil '/' p.data

/-- A valid relative path does not start with a slash. -/
theorem validRelPath_head (p : String) (hp : validRelPath p = true) :
    p.data.head? ≠ some '/' := by
  cases hd : p.data with
  | nil => simp
  | cons c cs =>
    by_cases hc : c = '/'
    · exfalso
      have e : splitChar '/' p.data = [] :: splitChar '/' cs := by
        rw [hd, hc]
        exact splitChar_cons_sep '/' cs
      rw [validRelPath, e] at hp
      simp at hp
    · simp [hc]

/-- A clean absolute root is non-empty and has clean components. -/
theorem cleanRoot_props (r : String) (h : cleanRoot r = true) :
    r.data ≠ [] ∧ (∀ c ∈ pyPathSplit r, c ≠ "" ∧ c ≠ "." ∧ c ≠ "..") := by
  rw [cleanRoot, Bool.and_eq_true] at h
  obtain ⟨hhead, hall⟩ := h
  constructor
  · intro hnil
    rw [hnil] at hhead
    simp at hhead
  · intro c hc
    have hmem := hc
    unfold pyPathSplit at hmem
    have hne : c ≠ "" := by
      have := (List.mem_filter.mp hmem).2
      simpa using this
    have := (List.all_eq_true.mp hall) c hc
    simp only [Bool.and_eq_true, decide_eq_true_eq, ne_eq] at this
    exact ⟨hne, this.1, this.2⟩

/-- C9: for every valid relative path `p`, making the join of the TFTP
root with `p` relative to the root returns `p`; the relativisation
prefix is the TFTP root normalised to carry a trailing slash. -/
theorem tftp_relpath_round_trip (cfg : Config) (p : String)
    (hroot : cleanRoot cfg.tftp_root = true) (hp : validRelPath p = true) :
    get_path_relative_to_tftp_root cfg (ospath_join cfg.tftp_root p) = p
    ∧ (cfg.tftp_root.data.getLast? ≠ some '/' →
        get_tftp_path_prefix cfg = cfg.tftp_root ++ "/") := by
  obtain ⟨hrne, hrcomps⟩ := cleanRoot_props _ hroot
  obtain ⟨hmap, hcomps, hne⟩ := validRelPath_groups p hp
  have hphead := validRelPath_head p hp
  constructor
  · simp only [get_path_relative_to_tftp_root, relpath_abs,
      get_tftp_path_prefix]
    rw [pyPathSplit_trailing _ hrne,
        pyPathSplit_ospath_join _ _ hrne hphead]
    rw [normComponents_eq_self _ hrcomps]
    rw [normComponents_eq_self _ (by
      intro c hc
      rcases List.mem_append.mp hc with h | h
      · exact hrcomps c h
      · exact hcomps c h)]
    rw [commonPrefixLen_self_append]
    rw [Nat.sub_self, List.replicate_zero, List.nil_append, List.drop_left]
    rw [if_neg hne]
    rw [hmap, joinComps_map_mk, joinChar_splitChar]
  · intro hlast
    unfold get_tftp_path_prefix ospath_join
    rw [if_neg (by decide : ¬(("" : String).data.head? = some '/'))]
    rw [if_neg (not_or.mpr ⟨hrne, hlast⟩)]
    simp

/-- C9 witness: the round trip on the default root and the relative
path `n1/config`. -/
theorem tftp_relpath_round_trip_witness :
    cleanRoot cfgDefault.tftp_root = true
    ∧ validRelPath "n1/config" = true
    ∧ get_path_relative_to_tftp_root cfgDefault
        (ospath_join cfgDefault.tftp_root "n1/config") = "n1/config" :=
  ⟨by decide, by decide,
   (tftp_relpath_round_trip cfgDefault "n1/config" (by decide)
      (by decide)).1⟩
